import Mathlib

/-!
Shallow embedding of the egui-directx10 renderer core (src/lib.rs and
src/texture.rs) and proofs about it.

Modelling conventions:
- f32 values (coverage scalars, vertex coordinates, zoom and scale factors,
  blend factors, clip rectangles) are embedded as exact rationals.  The
  claims under verification are about the arithmetic structure of the code,
  not about rounding of binary floating point, and every concrete witness
  below evaluates the expressions at float-exact inputs.
- GPU objects (shaders, state objects, views, buffers) are opaque handles,
  embedded as natural numbers.  Per-frame vertex and index buffers are
  embedded by their contents, since the handles are throwaway.
- Fallible GPU creation calls are modelled as succeeding; a mid-frame
  failure is injected explicitly through the failAt parameter of
  Renderer.render, which makes the buffer creation of the mesh with that
  index fail, exactly where the source propagates an error with the
  question-mark operator.
- Rust panics (unreachable and out-of-bounds indexing) are modelled as
  Option.none results.
-/

namespace EguiDx10

/-- Color32 from egui: an RGBA pixel with byte channels, premultiplied. -/
structure Color32 where
  r : Nat
  g : Nat
  b : Nat
  a : Nat
deriving DecidableEq, Repr

/-- Color32.to_array from egui: the byte quadruple of a pixel. -/
def Color32.to_array (c : Color32) : List Nat := [c.r, c.g, c.b, c.a]

/-- Rust f32-to-u8 conversion with the `as` operator: truncation toward
zero, saturating into 0..255.  For nonnegative inputs this is the floor. -/
def asU8 (q : ℚ) : Nat := min 255 (Int.toNat ⌊q⌋)

/-- Expansion of one coverage scalar into an RGBA pixel, as written in
texture.rs (create_texture and the partial-update loop):
Color32.from_rgba_premultiplied(255, 255, 255, (a * 255.) as u8). -/
def fontPixel (a : ℚ) : Color32 := { r := 255, g := 255, b := 255, a := asU8 (a * 255) }

/-- Modelled from the spec: the pixel the spec sentence prescribes, with the
alpha equal to round(a*255) (rounding to nearest).  This definition follows
the words of the spec and is compared against fontPixel, which is the
translation of the source. -/
def fontPixelSpec (a : ℚ) : Color32 :=
  { r := 255, g := 255, b := 255, a := min 255 (Int.toNat (round (a * 255))) }

/-- ImageData from egui: either a full-color RGBA image or a single-channel
coverage (font) image whose pixels are scalars in the unit interval. -/
inductive ImageData where
  | color (width height : Nat) (pixels : List Color32)
  | font (width height : Nat) (pixels : List ℚ)
deriving DecidableEq, Repr

/-- Width accessor of ImageData. -/
def ImageData.width : ImageData → Nat
  | .color w _ _ => w
  | .font w _ _ => w

/-- Height accessor of ImageData. -/
def ImageData.height : ImageData → Nat
  | .color _ h _ => h
  | .font _ h _ => h

/-- Whether the image is a coverage (font) image. -/
def ImageData.isFont : ImageData → Bool
  | .color _ _ _ => false
  | .font _ _ _ => true

/-- Opaque texture identifier issued by the GUI layer. -/
abbrev TextureId := Nat

/-- ImageDelta from egui: the image data plus an optional window offset.
A delta with no offset is a whole update (is_whole in the source). -/
structure ImageDelta where
  image : ImageData
  pos : Option (Nat × Nat)
deriving DecidableEq, Repr

/-- TexturesDelta from egui: ordered upserts and a free list. -/
structure TexturesDelta where
  set : List (TextureId × ImageDelta)
  free : List TextureId
deriving DecidableEq, Repr

/-- Texture from texture.rs: the GPU texture handle, the shader-resource
view handle, the cached CPU pixel buffer and the cached full width. -/
structure Texture where
  tex : Nat
  srv : Nat
  pixels : List Color32
  width : Nat
deriving DecidableEq, Repr

/-- Lookup in the id-keyed pool map (HashMap.get in the source; the
insertion order of an association list is unobservable through lookup). -/
def poolLookup : List (TextureId × Texture) → TextureId → Option Texture
  | [], _ => none
  | kv :: rest, k => if kv.1 = k then some kv.2 else poolLookup rest k

/-- Insert-or-replace in the pool map (HashMap.insert in the source). -/
def poolInsert : List (TextureId × Texture) → TextureId → Texture → List (TextureId × Texture)
  | [], k, v => [(k, v)]
  | kv :: rest, k, v => if kv.1 = k then (k, v) :: rest else kv :: poolInsert rest k v

/-- Removal from the pool map (HashMap.remove in the source). -/
def poolErase : List (TextureId × Texture) → TextureId → List (TextureId × Texture)
  | [], _ => []
  | kv :: rest, k => if kv.1 = k then poolErase rest k else kv :: poolErase rest k

/-- TexturePool from texture.rs.  The device field stands for the device
handle; it also serves as the counter from which fresh GPU handles are
drawn when textures are created. -/
structure TexturePool where
  device : Nat
  pool : List (TextureId × Texture)
deriving DecidableEq, Repr

/-- TexturePool::get_srv: resolve an id to its shader view, if present. -/
def TexturePool.get_srv (p : TexturePool) (tid : TextureId) : Option Nat :=
  (poolLookup p.pool tid).map Texture.srv

/-- TexturePool::create_texture from texture.rs: decode the image into an
RGBA pixel buffer (copying color images as-is and expanding coverage
scalars with fontPixel), then create the GPU texture and its view.  The
two fresh GPU handles are drawn from the device counter. -/
def create_texture (device : Nat) (data : ImageData) : Texture :=
  { tex := device
    srv := device + 1
    pixels :=
      match data with
      | .color _ _ px => px
      | .font _ _ px => px.map fontPixel
    width := data.width }

/-- One byte-quadruple store into the staging buffer of a partial update:
update_data[dst_idx..dst_idx + 4].copy_from_slice(color_array). -/
def writeColor (l : List Nat) (i : Nat) (c : Color32) : List Nat :=
  (((l.set i c.r).set (i + 1) c.g).set (i + 2) c.b).set (i + 3) c.a

/-- Inner loop of TexturePool::update_partial over the columns of one row:
for x in x0..x0+cnt, read the coverage scalar at frac = y*w+x, write the
expanded pixel into the cached buffer at whole = (ny+y)*W+nx+x and its
bytes into the staging buffer at dst = y*(W*4)+x*4.  Any out-of-bounds
access is the corresponding Rust panic and yields none. -/
def doCols (fpx : List ℚ) (W nx ny w y : Nat) :
    Nat → Nat → List Color32 × List Nat → Option (List Color32 × List Nat)
  | _, 0, st => some st
  | x, cnt + 1, st =>
    (fpx[y * w + x]?).bind fun a =>
      if (ny + y) * W + nx + x < st.1.length then
        if y * (W * 4) + x * 4 + 4 ≤ st.2.length then
          doCols fpx W nx ny w y (x + 1) cnt
            (st.1.set ((ny + y) * W + nx + x) (fontPixel a),
             writeColor st.2 (y * (W * 4) + x * 4) (fontPixel a))
        else none
      else none

/-- Outer loop of TexturePool::update_partial over the rows y0..y0+cnt. -/
def doRows (fpx : List ℚ) (W nx ny w : Nat) :
    Nat → Nat → List Color32 × List Nat → Option (List Color32 × List Nat)
  | _, 0, st => some st
  | y, cnt + 1, st =>
    (doCols fpx W nx ny w y 0 w st).bind fun st1 =>
      doRows fpx W nx ny w (y + 1) cnt st1

/-- D3D10_BOX passed to UpdateSubresource for the bounding sub-region. -/
structure D3D10_BOX where
  left : Nat
  top : Nat
  front : Nat
  right : Nat
  bottom : Nat
  back : Nat
deriving DecidableEq, Repr

/-- TexturePool::update_partial from texture.rs.  Only coverage images are
handled; any other image kind hits the unreachable branch (none).  On
success it returns the texture with the recomputed cached pixel buffer,
the D3D10_BOX of the touched sub-region and the staging bytes uploaded
with row pitch old.width*4. -/
def updatePartial (old : Texture) (image : ImageData) (pos : Nat × Nat) :
    Option (Texture × D3D10_BOX × List Nat) :=
  match image with
  | .font w h fpx =>
    (doRows fpx old.width pos.1 pos.2 w 0 h
        (old.pixels, List.replicate (h * (old.width * 4)) 0)).bind fun st =>
      some ({ old with pixels := st.1 },
        { left := pos.1, top := pos.2, front := 0,
          right := pos.1 + w, bottom := pos.2 + h, back := 1 },
        st.2)
  | _ => none

/-- Processing of the upsert list of a delta, in submission order (the
first loop of TexturePool::update).  A whole update installs a freshly
created texture under the id; a partial update against a present id
recomputes it in place; a partial update against an absent id is recorded
as a warning and skipped.  The accumulated warning list holds the ids of
the skipped partial updates.  A panic inside updatePartial yields none. -/
def updateSets (device : Nat) (pool : List (TextureId × Texture)) (warns : List TextureId) :
    List (TextureId × ImageDelta) → Option (Nat × List (TextureId × Texture) × List TextureId)
  | [] => some (device, pool, warns)
  | (tid, d) :: rest =>
    match d.pos with
    | none =>
      updateSets (device + 2) (poolInsert pool tid (create_texture device d.image)) warns rest
    | some pos =>
      match poolLookup pool tid with
      | some tex =>
        match updatePartial tex d.image pos with
        | some res => updateSets device (poolInsert pool tid res.1) warns rest
        | none => none
      | none => updateSets device pool (warns ++ [tid]) rest

/-- TexturePool::update: upserts first, in submission order, then frees.
Returns the new pool and the list of warned ids, or none on a panic. -/
def TexturePool.update (p : TexturePool) (delta : TexturesDelta) :
    Option (TexturePool × List TextureId) :=
  match updateSets p.device p.pool [] delta.set with
  | none => none
  | some (dev, pool1, warns) =>
    some ({ device := dev, pool := delta.free.foldl poolErase pool1 }, warns)

/-- Pos2-valued rectangle from egui, given by its min and max corners. -/
structure Rect where
  lo : ℚ × ℚ
  hi : ℚ × ℚ
deriving DecidableEq, Repr

/-- Scaling of a Rect by a scalar (Mul of egui Rect by f32). -/
def rectMul (r : Rect) (k : ℚ) : Rect :=
  { lo := (r.lo.1 * k, r.lo.2 * k), hi := (r.hi.1 * k, r.hi.2 * k) }

/-- Rust f32-to-i32 conversion with the `as` operator: truncation toward
zero, saturating at the i32 bounds. -/
def f32toI32 (q : ℚ) : ℤ :=
  max (-2147483648) (min 2147483647 (if 0 ≤ q then ⌊q⌋ else -⌊-q⌋))

/-- Win32 RECT with integer edges. -/
structure RECT where
  left : ℤ
  top : ℤ
  right : ℤ
  bottom : ℤ
deriving DecidableEq, Repr

/-- Conversion of a physical-space clip rectangle to the RECT handed to
RSSetScissorRects in draw_mesh (left, top, right, bottom with as-casts). -/
def rectToRECT (r : Rect) : RECT :=
  { left := f32toI32 r.lo.1, top := f32toI32 r.lo.2,
    right := f32toI32 r.hi.1, bottom := f32toI32 r.hi.2 }

/-- Vertex from egui epaint: logical position, texture coordinates and a
straight-alpha color. -/
structure Vertex where
  pos : ℚ × ℚ
  uv : ℚ × ℚ
  color : Color32
deriving DecidableEq, Repr

/-- Mesh from egui epaint: vertices, triangle indices and a texture id. -/
structure Mesh where
  vertices : List Vertex
  indices : List Nat
  texture_id : TextureId
deriving DecidableEq, Repr

/-- Primitive from egui epaint: a tessellated mesh or a paint callback. -/
inductive Primitive where
  | mesh (m : Mesh)
  | callback
deriving DecidableEq, Repr

/-- ClippedPrimitive from egui: a primitive with its clip rectangle. -/
structure ClippedPrimitive where
  primitive : Primitive
  clip_rect : Rect
deriving DecidableEq, Repr

/-- VertexData from lib.rs: the GPU vertex layout.  The color field keeps
the source Color32; the Color32-to-Rgba conversion performed by the source
is a per-channel floating-point gamma transform that no claim observes. -/
structure VertexData where
  pos : ℚ × ℚ
  uv : ℚ × ℚ
  color : Color32
deriving DecidableEq, Repr

/-- MeshData from lib.rs: the transformed vertices, the indices, the
texture id and the physical-space clip rectangle of one draw batch. -/
structure MeshData where
  vtx : List VertexData
  idx : List Nat
  tex : TextureId
  clip_rect : Rect
deriving DecidableEq, Repr

/-- Logical frame size computed in Renderer::render: the physical target
size divided by the display scale factor. -/
def frame_size_scaled (frame_size : Nat × Nat) (scale_factor : ℚ) : ℚ × ℚ :=
  ((frame_size.1 : ℚ) / scale_factor, (frame_size.2 : ℚ) / scale_factor)

/-- Vertex transform in Renderer::render, mapping GUI logical coordinates
to normalized device coordinates:
(pos.x * zoom / fss.1 * 2 - 1, 1 - pos.y * zoom / fss.2 * 2). -/
def transform_vertex (zoom_factor : ℚ) (fss : ℚ × ℚ) (pos : ℚ × ℚ) : ℚ × ℚ :=
  (pos.1 * zoom_factor / fss.1 * 2 - 1, 1 - pos.2 * zoom_factor / fss.2 * 2)

/-- Mesh preparation in Renderer::render: drop paint callbacks with a
warning, drop meshes with an empty index list, drop meshes whose index
count is not a multiple of three with a warning, and transform the
surviving vertices and clip rectangles. -/
def processPrimitives (zoom_factor scale_factor : ℚ) (fss : ℚ × ℚ)
    (prims : List ClippedPrimitive) : List MeshData :=
  (prims.filterMap fun cp =>
    match cp.primitive with
    | .mesh m => some (m, cp.clip_rect)
    | .callback => none).filterMap fun mc =>
      if mc.1.indices = [] then none
      else if mc.1.indices.length % 3 ≠ 0 then none
      else some
        { vtx := mc.1.vertices.map fun v =>
            { pos := transform_vertex zoom_factor fss v.pos, uv := v.uv, color := v.color }
          idx := mc.1.indices
          tex := mc.1.texture_id
          clip_rect := rectMul (rectMul mc.2 scale_factor) zoom_factor }

/-- D3D10_VIEWPORT as bound by RSSetViewports. -/
structure Viewport where
  TopLeftX : Nat
  TopLeftY : Nat
  Width : Nat
  Height : Nat
  MinDepth : ℚ
  MaxDepth : ℚ
deriving DecidableEq, Repr

/-- Pipeline state of the device context: every slot category the renderer
reads or writes.  The first fourteen fields are the categories captured by
StateBlock; the remaining ones (vertex buffer, index buffer, scissor
rectangles, pixel-shader shader resources) are written by draw_mesh but
never captured.  The draw_calls field is the trace of DrawIndexed calls,
recording each index count. -/
structure DeviceState where
  primitive_topology : Nat
  input_layout : Option Nat
  vertex_shader : Option Nat
  pixel_shader : Option Nat
  rasterizer_state : Option Nat
  viewports : List Viewport
  sampler_states : List (Option Nat)
  render_targets : List (Option Nat)
  depth_stencil_view : Option Nat
  blend_state : Option Nat
  blend_factor : List ℚ
  sample_mask : Nat
  depth_stencil_state : Option Nat
  stencil_ref : Nat
  vertex_buffer : Option (List VertexData)
  index_buffer : Option (List Nat)
  scissor_rects : List RECT
  ps_shader_resources : List (Option Nat)
  draw_calls : List Nat
deriving DecidableEq, Repr

/-- D3D10 topology constant bound by setup. -/
def D3D10_PRIMITIVE_TOPOLOGY_TRIANGLELIST : Nat := 4

/-- StateBlock from lib.rs: the categories captured by the manual state
block (there is no field for scissor rectangles, vertex buffer, index
buffer or pixel-shader shader resources). -/
structure StateBlock where
  primitive_topology : Nat
  input_layout : Option Nat
  vertex_shader : Option Nat
  pixel_shader : Option Nat
  rasterizer_state : Option Nat
  viewports : List Viewport
  sampler_states : List (Option Nat)
  render_targets : List (Option Nat)
  depth_stencil_view : Option Nat
  blend_state : Option Nat
  blend_factor : List ℚ
  sample_mask : Nat
  depth_stencil_state : Option Nat
  stencil_ref : Nat
deriving DecidableEq, Repr

/-- StateBlock::new: capture the current pipeline state through the
per-category getters.  The sampler query fills a vector of 16 slots and
the render-target query fills a vector of 8 slots, so the captured lists
are those device slots viewed through windows of length 16 and 8. -/
def StateBlock.new (s : DeviceState) : StateBlock :=
  { primitive_topology := s.primitive_topology
    input_layout := s.input_layout
    vertex_shader := s.vertex_shader
    pixel_shader := s.pixel_shader
    rasterizer_state := s.rasterizer_state
    viewports := s.viewports
    sampler_states := (s.sampler_states ++ List.replicate 16 none).take 16
    render_targets := (s.render_targets ++ List.replicate 8 none).take 8
    depth_stencil_view := s.depth_stencil_view
    blend_state := s.blend_state
    blend_factor := s.blend_factor
    sample_mask := s.sample_mask
    depth_stencil_state := s.depth_stencil_state
    stencil_ref := s.stencil_ref }

/-- StateBlock::apply: write every captured value back into its slot,
re-binding empty slots as empty.  The fields of the device state that the
block does not capture are left untouched. -/
def StateBlock.apply (sb : StateBlock) (s : DeviceState) : DeviceState :=
  { s with
    primitive_topology := sb.primitive_topology
    input_layout := sb.input_layout
    vertex_shader := sb.vertex_shader
    pixel_shader := sb.pixel_shader
    rasterizer_state := sb.rasterizer_state
    viewports := sb.viewports
    sampler_states := sb.sampler_states
    render_targets := sb.render_targets
    depth_stencil_view := sb.depth_stencil_view
    blend_state := sb.blend_state
    blend_factor := sb.blend_factor
    sample_mask := sb.sample_mask
    depth_stencil_state := sb.depth_stencil_state
    stencil_ref := sb.stencil_ref }

/-- Renderer from lib.rs: the fixed pipeline objects built once at
construction (opaque handles), the texture pool, the state-preservation
flag and the state_block field that holds the last captured snapshot. -/
structure Renderer where
  input_layout : Nat
  vertex_shader : Nat
  pixel_shader : Nat
  rasterizer_state : Nat
  depth_stencil_state : Nat
  sampler_state : Nat
  blend_state : Nat
  texture_pool : TexturePool
  restore_state_after_render : Bool
  state_block : Option StateBlock
deriving DecidableEq, Repr

/-- RendererOutput from lib.rs.  Tessellation is performed by the GUI
layer (egui Context::tessellate) and is out of scope, so the shape list is
embedded as the list of clipped primitives it tessellates to; the
pixels_per_point field only parameterizes that external tessellation. -/
structure RendererOutput where
  textures_delta : TexturesDelta
  shapes : List ClippedPrimitive
  pixels_per_point : ℚ
deriving DecidableEq, Repr

/-- Renderer::setup: bind the fixed objects — triangle-list topology,
input layout, shaders, rasterizer state, one full-target viewport, the
sampler at slot 0, the render target plus depth-stencil view (unbinding
the other seven target slots), the blend state with zero blend factors and
full sample mask, and the depth-stencil state with stencil reference 2. -/
def Renderer.setup (r : Renderer) (s : DeviceState)
    (render_target depth_stencil_target : Nat) (frame_size : Nat × Nat) : DeviceState :=
  { s with
    primitive_topology := D3D10_PRIMITIVE_TOPOLOGY_TRIANGLELIST
    input_layout := some r.input_layout
    vertex_shader := some r.vertex_shader
    pixel_shader := some r.pixel_shader
    rasterizer_state := some r.rasterizer_state
    viewports := [{ TopLeftX := 0, TopLeftY := 0, Width := frame_size.1,
                    Height := frame_size.2, MinDepth := 0, MaxDepth := 1 }]
    sampler_states := s.sampler_states.set 0 (some r.sampler_state)
    render_targets := some render_target :: List.replicate 7 none
    depth_stencil_view := some depth_stencil_target
    blend_state := some r.blend_state
    blend_factor := [0, 0, 0, 0]
    sample_mask := 4294967295
    depth_stencil_state := some r.depth_stencil_state
    stencil_ref := 2 }

/-- Renderer::draw_mesh, state part: bind the throwaway vertex and index
buffers (embedded by their contents), set the scissor rectangle to the
physical clip rect, bind the resolved texture view at pixel-shader
shader-resource slot 0 (skipping only the bind, with a warning, when the
id does not resolve), then issue one DrawIndexed with the index count. -/
def draw_mesh (texture_pool : TexturePool) (mesh : MeshData) (s : DeviceState) : DeviceState :=
  let s1 := { s with
    vertex_buffer := some mesh.vtx
    index_buffer := some mesh.idx
    scissor_rects := [rectToRECT mesh.clip_rect] }
  let s2 :=
    match TexturePool.get_srv texture_pool mesh.tex with
    | some srv => { s1 with ps_shader_resources := s1.ps_shader_resources.set 0 (some srv) }
    | none => s1
  { s2 with draw_calls := s2.draw_calls ++ [mesh.idx.length] }

/-- Draw loop of Renderer::render: draw the meshes in order.  When failAt
points at the current mesh, its buffer creation fails before any binding
and the loop stops with an error, exactly where the source returns early
through the question-mark operator. -/
def drawLoop (texture_pool : TexturePool) :
    Option Nat → List MeshData → DeviceState → DeviceState × Bool
  | _, [], s => (s, true)
  | failAt, m :: rest, s =>
    if failAt = some 0 then (s, false)
    else drawLoop texture_pool (failAt.map (· - 1)) rest (draw_mesh texture_pool m s)

/-- Renderer::render.  In order: apply the texture delta (propagating a
panic as none); return untouched on an empty shape list; capture a
StateBlock into the state_block field when state preservation is enabled;
bind the fixed objects; prepare the meshes; draw them, stopping early on
an injected failure; and, only when the loop completed, apply the held
state block.  The Bool of the result is the success of the call. -/
def Renderer.render (failAt : Option Nat) (r : Renderer) (s : DeviceState)
    (render_target depth_stencil_target : Nat) (frame_size : Nat × Nat)
    (zoom_factor scale_factor : ℚ) (egui_output : RendererOutput) :
    Option (Renderer × DeviceState × Bool) :=
  match TexturePool.update r.texture_pool egui_output.textures_delta with
  | none => none
  | some (pool1, _) =>
    let r1 := { r with texture_pool := pool1 }
    if egui_output.shapes = [] then some (r1, s, true)
    else
      let fss := frame_size_scaled frame_size scale_factor
      let r2 := if r1.restore_state_after_render
        then { r1 with state_block := some (StateBlock.new s) }
        else r1
      let s1 := Renderer.setup r2 s render_target depth_stencil_target frame_size
      let meshes := processPrimitives zoom_factor scale_factor fss egui_output.shapes
      match drawLoop r2.texture_pool failAt meshes s1 with
      | (s2, false) => some (r2, s2, false)
      | (s2, true) =>
        match r2.state_block with
        | some sb => some (r2, StateBlock.apply sb s2, true)
        | none => some (r2, s2, true)

/-- D3D10 fill-mode constant. -/
def D3D10_FILL_SOLID : Nat := 3

/-- D3D10 cull-mode constant for no culling. -/
def D3D10_CULL_NONE : Nat := 1

/-- D3D10_RASTERIZER_DESC field layout. -/
structure D3D10_RASTERIZER_DESC where
  FillMode : Nat
  CullMode : Nat
  FrontCounterClockwise : Bool
  DepthBias : ℤ
  DepthBiasClamp : ℚ
  SlopeScaledDepthBias : ℚ
  DepthClipEnable : Bool
  ScissorEnable : Bool
  MultisampleEnable : Bool
  AntialiasedLineEnable : Bool
deriving DecidableEq, Repr

/-- Renderer::RASTERIZER_DESC from lib.rs, the description of the
rasterizer state built once at renderer construction. -/
def RASTERIZER_DESC : D3D10_RASTERIZER_DESC :=
  { FillMode := D3D10_FILL_SOLID
    CullMode := D3D10_CULL_NONE
    FrontCounterClockwise := true
    DepthBias := 0
    DepthBiasClamp := 0
    SlopeScaledDepthBias := 0
    DepthClipEnable := true
    ScissorEnable := false
    MultisampleEnable := true
    AntialiasedLineEnable := true }

/-- Modelled from the spec: the update window at offset (nx, ny) with
sub-image size (w, h) lies entirely within the cached width of the texture
and within its pixel-buffer bounds. -/
@[reducible] def specWindowInBounds (old : Texture) (w h nx ny : Nat) : Prop :=
  nx + w ≤ old.width ∧ (ny + h) * old.width ≤ old.pixels.length

/-- Exact in-bounds condition of the partial-update loops: every access of
the coverage pixels, of the cached pixel buffer, and of the staging buffer
(whose length is h rows of pitch W*4) is in range. -/
@[reducible] def partialInBounds (pixLen fpxLen W w h nx ny : Nat) : Prop :=
  ∀ y < h, ∀ x < w,
    y * w + x < fpxLen ∧ (ny + y) * W + nx + x < pixLen ∧
      y * (W * 4) + x * 4 + 4 ≤ h * (W * 4)

/-- Concrete texture used by witnesses: one opaque white pixel, width 1. -/
def wTexture : Texture :=
  { tex := 8, srv := 3, pixels := [{ r := 255, g := 255, b := 255, a := 255 }], width := 1 }

/-- Concrete texture pool used by witnesses: one texture under id 7. -/
def wPool : TexturePool := { device := 10, pool := [(7, wTexture)] }

/-- Concrete renderer used by witnesses, with state preservation on. -/
def wRend : Renderer :=
  { input_layout := 1, vertex_shader := 2, pixel_shader := 3, rasterizer_state := 4,
    depth_stencil_state := 5, sampler_state := 6, blend_state := 7,
    texture_pool := wPool, restore_state_after_render := true, state_block := none }

/-- Concrete pre-call device state used by witnesses. -/
def wState : DeviceState :=
  { primitive_topology := 9, input_layout := none, vertex_shader := some 100,
    pixel_shader := some 101, rasterizer_state := some 102, viewports := [],
    sampler_states := List.replicate 16 none, render_targets := List.replicate 8 none,
    depth_stencil_view := none, blend_state := none, blend_factor := [1, 1, 1, 1],
    sample_mask := 7, depth_stencil_state := none, stencil_ref := 9,
    vertex_buffer := none, index_buffer := none, scissor_rects := [],
    ps_shader_resources := List.replicate 16 none, draw_calls := [] }

/-- Concrete opaque white color used by witness data. -/
def wWhite : Color32 := { r := 255, g := 255, b := 255, a := 255 }

/-- Concrete triangle mesh used by witnesses, referencing texture id 7. -/
def wMesh : Mesh :=
  { vertices :=
      [{ pos := (50, 40), uv := (0, 0), color := wWhite },
       { pos := (0, 0), uv := (0, 0), color := wWhite },
       { pos := (100, 80), uv := (0, 0), color := wWhite }]
    indices := [0, 1, 2]
    texture_id := 7 }

/-- Concrete renderer output used by witnesses: an empty texture delta and
one clipped triangle mesh. -/
def wOut : RendererOutput :=
  { textures_delta := { set := [], free := [] }
    shapes := [{ primitive := .mesh wMesh, clip_rect := { lo := (0, 0), hi := (10, 10) } }]
    pixels_per_point := 1 }

/-- Concrete renderer state after the witness render call: the texture
pool is unchanged and the state_block field holds the captured block. -/
def wR2 : Renderer := { wRend with state_block := some (StateBlock.new wState) }

/-- Concrete device state after the witness render call: every captured
category is back to its wState value, while the scissor rectangle, the
vertex and index buffers and pixel-shader shader-resource slot 0 keep the
values the draw of wMesh gave them, and one DrawIndexed of 3 indices was
recorded. -/
def wFinal : DeviceState :=
  { primitive_topology := 9, input_layout := none, vertex_shader := some 100,
    pixel_shader := some 101, rasterizer_state := some 102, viewports := [],
    sampler_states := List.replicate 16 none, render_targets := List.replicate 8 none,
    depth_stencil_view := none, blend_state := none, blend_factor := [1, 1, 1, 1],
    sample_mask := 7, depth_stencil_state := none, stencil_ref := 9,
    vertex_buffer := some
      [{ pos := (0, 0), uv := (0, 0), color := wWhite },
       { pos := (-1, 1), uv := (0, 0), color := wWhite },
       { pos := (1, -1), uv := (0, 0), color := wWhite }]
    index_buffer := some [0, 1, 2]
    scissor_rects := [{ left := 0, top := 0, right := 10, bottom := 10 }]
    ps_shader_resources := (List.replicate 16 none).set 0 (some 3)
    draw_calls := [3] }

/-- Concrete 4-by-4 texture used by the partial-update counterexample. -/
def wTex4 : Texture :=
  { tex := 0, srv := 0, pixels := List.replicate 16 { r := 0, g := 0, b := 0, a := 0 },
    width := 4 }

/-- Per-access in-bounds condition of the partial-update loops at column
offset t of row y: the coverage read, the cached-pixel write and the
staging-byte write are all in range. -/
@[reducible] def colOk (fpxLen pixLen dataLen W nx ny w y t : Nat) : Prop :=
  y * w + t < fpxLen ∧ (ny + y) * W + nx + t < pixLen ∧
    y * (W * 4) + t * 4 + 4 ≤ dataLen

/-- Concrete expanded pixel of a full-coverage scalar. -/
def wPartialPixel : Color32 := { r := 255, g := 255, b := 255, a := 255 }

/-- Concrete result of the witness partial update of wTex4 at (1, 2). -/
def wPartialRes : Texture × D3D10_BOX × List Nat :=
  ({ tex := 0, srv := 0,
     pixels := (List.replicate 16 { r := 0, g := 0, b := 0, a := 0 }).set 9 wPartialPixel,
     width := 4 },
   { left := 1, top := 2, front := 0, right := 2, bottom := 3, back := 1 },
   writeColor (List.replicate 16 0) 0 wPartialPixel)

/-- Concrete MeshData produced for wMesh by the witness render call. -/
def wMeshData : MeshData :=
  { vtx :=
      [{ pos := (0, 0), uv := (0, 0), color := wWhite },
       { pos := (-1, 1), uv := (0, 0), color := wWhite },
       { pos := (1, -1), uv := (0, 0), color := wWhite }]
    idx := [0, 1, 2]
    tex := 7
    clip_rect := rectMul (rectMul { lo := (0, 0), hi := (10, 10) } 1) 1 }

/-- Concrete mesh with an empty index list, dropped by the mesh filter. -/
def wEmptyMesh : Mesh := { vertices := [], indices := [], texture_id := 7 }

/-- Concrete mesh whose index count is not a multiple of three, dropped
with a warning by the mesh filter. -/
def wBadMesh : Mesh := { vertices := [], indices := [0, 1, 2, 0], texture_id := 7 }

/-- Concrete renderer output exercising every filter branch: a paint
callback, an empty-index mesh, an incomplete-triangle mesh and one
drawable triangle mesh. -/
def wOut6 : RendererOutput :=
  { textures_delta := { set := [], free := [] }
    shapes :=
      [{ primitive := .callback, clip_rect := { lo := (0, 0), hi := (10, 10) } },
       { primitive := .mesh wEmptyMesh, clip_rect := { lo := (0, 0), hi := (10, 10) } },
       { primitive := .mesh wBadMesh, clip_rect := { lo := (0, 0), hi := (10, 10) } },
       { primitive := .mesh wMesh, clip_rect := { lo := (0, 0), hi := (10, 10) } }]
    pixels_per_point := 1 }

/-! Helper lemmas about the pool map. -/

theorem poolLookup_poolErase (l : List (TextureId × Texture)) (k k' : TextureId) :
    poolLookup (poolErase l k) k' = if k' = k then none else poolLookup l k' := by
  induction l with
  | nil => simp [poolErase, poolLookup]
  | cons kv rest ih =>
    simp only [poolErase]
    by_cases h1 : kv.1 = k
    · simp only [if_pos h1, ih]
      by_cases h2 : k' = k
      · simp [h2]
      · have hne : ¬ kv.1 = k' := by rw [h1]; intro hc; exact h2 hc.symm
        simp [poolLookup, h2, hne]
    · simp only [if_neg h1, poolLookup]
      by_cases h3 : kv.1 = k'
      · have hne : ¬ k' = k := by intro hc; apply h1; rw [h3, hc]
        simp [h3, hne]
      · simp [h3, ih]

theorem poolLookup_foldl_poolErase (fs : List TextureId) (l : List (TextureId × Texture))
    (tid : TextureId) :
    poolLookup (fs.foldl poolErase l) tid = if tid ∈ fs then none else poolLookup l tid := by
  induction fs generalizing l with
  | nil => simp
  | cons f fs ih =>
    simp only [List.foldl_cons, ih, poolLookup_poolErase, List.mem_cons]
    by_cases h1 : tid ∈ fs <;> by_cases h2 : tid = f <;> simp [h1, h2]

/-- Claim C3: upserts are processed before frees in TexturePool::update, so
any id in the free set of a delta resolves to none after the update,
whatever the prior pool state and whatever upserts (including for the same
id) the delta carried. -/
theorem claim_C3 (p : TexturePool) (delta : TexturesDelta) (tid : TextureId)
    (p' : TexturePool) (warns : List TextureId)
    (hfree : tid ∈ delta.free)
    (hupd : TexturePool.update p delta = some (p', warns)) :
    TexturePool.get_srv p' tid = none := by
  unfold TexturePool.update at hupd
  cases h : updateSets p.device p.pool [] delta.set with
  | none => rw [h] at hupd; exact absurd hupd (by simp)
  | some res =>
    rw [h] at hupd
    cases hupd
    simp [TexturePool.get_srv, poolLookup_foldl_poolErase, hfree]

/-- Witness for claim C3: a delta that both replaces and frees id 7. -/
theorem claim_C3_witness :
    TexturePool.get_srv { device := 12, pool := [] } 7 = none :=
  claim_C3 wPool
    { set := [(7, { image := ImageData.color 1 1 [wWhite], pos := none })], free := [7] }
    7 { device := 12, pool := [] } [] (by decide) (by decide)

/-- Claim C9 (theorem): a partial update whose id is absent from the pool
is skipped with a warning by the upsert loop, leaving the pool unchanged,
and a delta holding just that update succeeds and returns the pool as it
was together with the warned id. -/
theorem claim_C9 (p : TexturePool) (tid : TextureId) (img : ImageData) (pos : Nat × Nat)
    (habsent : poolLookup p.pool tid = none) :
    (∀ device warns rest,
      updateSets device p.pool warns ((tid, { image := img, pos := some pos }) :: rest) =
        updateSets device p.pool (warns ++ [tid]) rest) ∧
    TexturePool.update p
        { set := [(tid, { image := img, pos := some pos })], free := [] } =
      some (p, [tid]) := by
  constructor
  · intro device warns rest
    simp [updateSets, habsent]
  · simp [TexturePool.update, updateSets, habsent]

/-- Witness for claim C9: a partial update against the absent id 11. -/
theorem claim_C9_witness :
    TexturePool.update wPool
        { set := [(11, { image := ImageData.color 1 1 [wWhite], pos := some (0, 0) })],
          free := [] } =
      some (wPool, [11]) :=
  (claim_C9 wPool 11 (ImageData.color 1 1 [wWhite]) (0, 0) (by decide)).2

/-- Claim C8: the rasterizer description in the source disables culling and
enables multisampling and antialiased lines as the spec says, but its
ScissorEnable field is false, contradicting the enabled scissor test the
spec states; yet draw_mesh sets a scissor rectangle for every mesh, which
the disabled scissor test ignores.  This records the divergence. -/
theorem claim_C8 :
    RASTERIZER_DESC.CullMode = D3D10_CULL_NONE ∧
    RASTERIZER_DESC.ScissorEnable = false ∧
    RASTERIZER_DESC.MultisampleEnable = true ∧
    RASTERIZER_DESC.AntialiasedLineEnable = true ∧
    (∀ pool m s, (draw_mesh pool m s).scissor_rects = [rectToRECT m.clip_rect]) := by
  refine ⟨rfl, rfl, rfl, rfl, fun pool m s => ?_⟩
  cases h : TexturePool.get_srv pool m.tex <;> simp [draw_mesh, h]

/-- Claim C1: the vertex transform of Renderer::render maps a logical
position to exactly the normalized device coordinates the spec states,
for the logical frame size obtained by dividing the physical size by the
scale factor, and the logical-frame center maps to the origin when the
zoom factor is 1. -/
theorem claim_C1 (fw fh : Nat) (scale_factor zoom_factor : ℚ) (pos : ℚ × ℚ)
    (hs : 0 < scale_factor) (hw : 0 < fw) (hh : 0 < fh) :
    transform_vertex zoom_factor (frame_size_scaled (fw, fh) scale_factor) pos =
      (pos.1 * zoom_factor / ((fw : ℚ) / scale_factor) * 2 - 1,
       1 - pos.2 * zoom_factor / ((fh : ℚ) / scale_factor) * 2) ∧
    transform_vertex 1 (frame_size_scaled (fw, fh) scale_factor)
        (((fw : ℚ) / scale_factor) / 2, ((fh : ℚ) / scale_factor) / 2) = (0, 0) := by
  have hW : (fw : ℚ) / scale_factor ≠ 0 :=
    div_ne_zero (by exact_mod_cast hw.ne') hs.ne'
  have hH : (fh : ℚ) / scale_factor ≠ 0 :=
    div_ne_zero (by exact_mod_cast hh.ne') hs.ne'
  constructor
  · rfl
  · simp only [transform_vertex, frame_size_scaled, Prod.mk.injEq]
    constructor
    · field_simp
      ring
    · field_simp
      ring

/-- Witness for claim C1 at a 200 by 100 target with scale factor 2. -/
theorem claim_C1_witness :
    transform_vertex 3 (frame_size_scaled (200, 100) 2) (5, 7) =
      ((5 : ℚ) * 3 / ((200 : ℚ) / 2) * 2 - 1, 1 - (7 : ℚ) * 3 / ((100 : ℚ) / 2) * 2) ∧
    transform_vertex 1 (frame_size_scaled (200, 100) 2)
        (((200 : ℚ) / 2) / 2, ((100 : ℚ) / 2) / 2) = (0, 0) :=
  claim_C1 200 100 2 3 (5, 7) (by norm_num) (by norm_num) (by norm_num)

/-! Helper lemmas about the draw loop and the render call. -/

theorem drawLoop_none (pool : TexturePool) (ms : List MeshData) (s : DeviceState) :
    drawLoop pool none ms s = (ms.foldl (fun st m => draw_mesh pool m st) s, true) := by
  induction ms generalizing s with
  | nil => rfl
  | cons m rest ih => simp [drawLoop, ih]

theorem drawLoop_some (pool : TexturePool) (ms : List MeshData) (i : Nat) (s : DeviceState)
    (hi : i < ms.length) :
    drawLoop pool (some i) ms s =
      ((ms.take i).foldl (fun st m => draw_mesh pool m st) s, false) := by
  induction ms generalizing i s with
  | nil => simp at hi
  | cons m rest ih =>
    cases i with
    | zero => simp [drawLoop]
    | succ n =>
      have hn : n < rest.length := by simpa using hi
      simp [drawLoop, ih n _ hn]

theorem draw_mesh_draw_calls (pool : TexturePool) (m : MeshData) (s : DeviceState) :
    (draw_mesh pool m s).draw_calls = s.draw_calls ++ [m.idx.length] := by
  cases h : TexturePool.get_srv pool m.tex <;> simp [draw_mesh, h]

theorem foldl_draw_mesh_draw_calls (pool : TexturePool) (ms : List MeshData) :
    ∀ s : DeviceState,
      (ms.foldl (fun st m => draw_mesh pool m st) s).draw_calls =
        s.draw_calls ++ ms.map (fun m => m.idx.length) := by
  induction ms with
  | nil => simp
  | cons m rest ih =>
    intro s
    simp [ih, draw_mesh_draw_calls]

theorem foldl_draw_mesh_last (pool : TexturePool) (ms : List MeshData) :
    ∀ lm : MeshData, ms.getLast? = some lm → ∀ s : DeviceState,
      (ms.foldl (fun st m => draw_mesh pool m st) s).scissor_rects =
          [rectToRECT lm.clip_rect] ∧
        (ms.foldl (fun st m => draw_mesh pool m st) s).vertex_buffer = some lm.vtx ∧
        (ms.foldl (fun st m => draw_mesh pool m st) s).index_buffer = some lm.idx := by
  induction ms with
  | nil => intro lm h; simp at h
  | cons m rest ih =>
    intro lm hlast s
    cases rest with
    | nil =>
      simp only [List.getLast?_singleton, Option.some.injEq] at hlast
      subst hlast
      cases h : TexturePool.get_srv pool m.tex <;> simp [draw_mesh, h]
    | cons m2 t =>
      have h2 : (m2 :: t).getLast? = some lm := by
        rw [List.getLast?_cons_cons] at hlast
        exact hlast
      simpa using ih lm h2 (draw_mesh pool m s)

theorem take_append_replicate {α : Type} (l : List α) (x : α) (n : Nat)
    (h : l.length = n) : (l ++ List.replicate n x).take n = l := by
  subst h
  exact List.take_left l _

theorem render_success (r : Renderer) (s : DeviceState) (rt dsv : Nat) (fs : Nat × Nat)
    (z sc : ℚ) (out : RendererOutput) (p1 : TexturePool) (warns : List TextureId)
    (hupd : TexturePool.update r.texture_pool out.textures_delta = some (p1, warns))
    (hne : out.shapes ≠ [])
    (hres : r.restore_state_after_render = true) :
    Renderer.render none r s rt dsv fs z sc out =
      some ({ r with texture_pool := p1, state_block := some (StateBlock.new s) },
        StateBlock.apply (StateBlock.new s)
          ((processPrimitives z sc (frame_size_scaled fs sc) out.shapes).foldl
            (fun st m => draw_mesh p1 m st)
            (Renderer.setup
              { r with texture_pool := p1, state_block := some (StateBlock.new s) }
              s rt dsv fs)),
        true) := by
  unfold Renderer.render
  rw [hupd]
  simp only [if_neg hne, hres, if_pos, drawLoop_none]

theorem processPrimitives_idx_lengths (z sc : ℚ) (fss : ℚ × ℚ)
    (prims : List ClippedPrimitive) :
    (processPrimitives z sc fss prims).map (fun m => m.idx.length) =
      prims.flatMap (fun cp =>
        match cp.primitive with
        | .callback => []
        | .mesh m =>
          if m.indices = [] then []
          else if m.indices.length % 3 ≠ 0 then []
          else [m.indices.length]) := by
  induction prims with
  | nil => rfl
  | cons cp rest ih =>
    cases hp : cp.primitive with
    | callback =>
      simpa [processPrimitives, List.filterMap_cons, hp] using ih
    | mesh m =>
      by_cases h1 : m.indices = []
      · simpa [processPrimitives, List.filterMap_cons, hp, h1] using ih
      · by_cases h2 : m.indices.length % 3 = 0
        · simpa [processPrimitives, List.filterMap_cons, hp, h1, h2] using ih
        · simpa [processPrimitives, List.filterMap_cons, hp, h1, h2] using ih

/-- Helper: the witness render call evaluated end to end. -/
theorem wRender_eq :
    Renderer.render none wRend wState 50 60 (100, 80) 1 1 wOut = some (wR2, wFinal, true) := by
  simp only [Renderer.render, TexturePool.update, updateSets, wOut, wRend, wPool, wState,
    Renderer.setup, processPrimitives, drawLoop, draw_mesh, StateBlock.new, StateBlock.apply,
    frame_size_scaled, transform_vertex, rectMul, rectToRECT, f32toI32, wMesh, wWhite,
    TexturePool.get_srv, poolLookup, wTexture, wR2, wFinal, List.filterMap,
    reduceIte, reduceCtorEq, Option.map, List.foldl]
  norm_num

/-- Helper: the witness render call over the four-shape output evaluates to
the same final state, since only the triangle mesh survives the filter. -/
theorem wRender6_eq :
    Renderer.render none wRend wState 50 60 (100, 80) 1 1 wOut6 = some (wR2, wFinal, true) := by
  simp only [Renderer.render, TexturePool.update, updateSets, wOut6, wRend, wPool, wState,
    Renderer.setup, processPrimitives, drawLoop, draw_mesh, StateBlock.new, StateBlock.apply,
    frame_size_scaled, transform_vertex, rectMul, rectToRECT, f32toI32, wMesh, wWhite,
    wEmptyMesh, wBadMesh, TexturePool.get_srv, poolLookup, wTexture, wR2, wFinal,
    List.filterMap, reduceIte, reduceCtorEq, Option.map, List.foldl]
  norm_num

/-- Claim C4: with state preservation enabled, a completed render call on a
non-empty shape list leaves every captured slot category — topology, input
layout, shaders, rasterizer state, viewports, the 16 sampler slots, the 8
render-target slots and depth-stencil view, blend state with factors and
mask, depth-stencil state with stencil reference — exactly as it was
before the call, empty slots included. -/
theorem claim_C4 (r : Renderer) (s : DeviceState) (rt dsv : Nat) (fs : Nat × Nat)
    (z sc : ℚ) (out : RendererOutput) (p1 : TexturePool) (warns : List TextureId)
    (hres : r.restore_state_after_render = true)
    (hupd : TexturePool.update r.texture_pool out.textures_delta = some (p1, warns))
    (hne : out.shapes ≠ [])
    (hs16 : s.sampler_states.length = 16)
    (hrt8 : s.render_targets.length = 8) :
    ∀ r' s' ok, Renderer.render none r s rt dsv fs z sc out = some (r', s', ok) →
      s'.primitive_topology = s.primitive_topology ∧
      s'.input_layout = s.input_layout ∧
      s'.vertex_shader = s.vertex_shader ∧
      s'.pixel_shader = s.pixel_shader ∧
      s'.rasterizer_state = s.rasterizer_state ∧
      s'.viewports = s.viewports ∧
      s'.sampler_states = s.sampler_states ∧
      s'.render_targets = s.render_targets ∧
      s'.depth_stencil_view = s.depth_stencil_view ∧
      s'.blend_state = s.blend_state ∧
      s'.blend_factor = s.blend_factor ∧
      s'.sample_mask = s.sample_mask ∧
      s'.depth_stencil_state = s.depth_stencil_state ∧
      s'.stencil_ref = s.stencil_ref := by
  intro r' s' ok hr
  rw [render_success r s rt dsv fs z sc out p1 warns hupd hne hres] at hr
  simp only [Option.some.injEq, Prod.mk.injEq] at hr
  obtain ⟨-, hs', -⟩ := hr
  subst hs'
  exact ⟨rfl, rfl, rfl, rfl, rfl, rfl, take_append_replicate _ _ _ hs16,
    take_append_replicate _ _ _ hrt8, rfl, rfl, rfl, rfl, rfl, rfl⟩

/-- Witness for claim C4: the concrete witness render call restores all
fourteen captured categories of wState. -/
theorem claim_C4_witness :
    wFinal.primitive_topology = wState.primitive_topology ∧
    wFinal.input_layout = wState.input_layout ∧
    wFinal.vertex_shader = wState.vertex_shader ∧
    wFinal.pixel_shader = wState.pixel_shader ∧
    wFinal.rasterizer_state = wState.rasterizer_state ∧
    wFinal.viewports = wState.viewports ∧
    wFinal.sampler_states = wState.sampler_states ∧
    wFinal.render_targets = wState.render_targets ∧
    wFinal.depth_stencil_view = wState.depth_stencil_view ∧
    wFinal.blend_state = wState.blend_state ∧
    wFinal.blend_factor = wState.blend_factor ∧
    wFinal.sample_mask = wState.sample_mask ∧
    wFinal.depth_stencil_state = wState.depth_stencil_state ∧
    wFinal.stencil_ref = wState.stencil_ref :=
  claim_C4 wRend wState 50 60 (100, 80) 1 1 wOut wPool [] rfl (by decide)
    (by simp [wOut]) (by simp [wState]) (by simp [wState]) wR2 wFinal true wRender_eq

/-- Claim C5 (amended): StateBlock.apply writes back only the captured
categories; the scissor rectangles, vertex buffer, index buffer and
pixel-shader shader resources are untouched by it, so after a completed
preserving render call those bindings keep the values the last drawn mesh
gave them instead of the pre-call values. -/
theorem claim_C5 :
    (∀ (sb : StateBlock) (t : DeviceState),
      (StateBlock.apply sb t).scissor_rects = t.scissor_rects ∧
      (StateBlock.apply sb t).vertex_buffer = t.vertex_buffer ∧
      (StateBlock.apply sb t).index_buffer = t.index_buffer ∧
      (StateBlock.apply sb t).ps_shader_resources = t.ps_shader_resources) ∧
    (∀ (r : Renderer) (s : DeviceState) (rt dsv : Nat) (fs : Nat × Nat) (z sc : ℚ)
      (out : RendererOutput) (p1 : TexturePool) (warns : List TextureId) (lm : MeshData),
      TexturePool.update r.texture_pool out.textures_delta = some (p1, warns) →
      out.shapes ≠ [] →
      r.restore_state_after_render = true →
      (processPrimitives z sc (frame_size_scaled fs sc) out.shapes).getLast? = some lm →
      ∀ r' s' ok, Renderer.render none r s rt dsv fs z sc out = some (r', s', ok) →
        s'.scissor_rects = [rectToRECT lm.clip_rect] ∧
        s'.vertex_buffer = some lm.vtx ∧
        s'.index_buffer = some lm.idx) := by
  constructor
  · intro sb t
    simp [StateBlock.apply]
  · intro r s rt dsv fs z sc out p1 warns lm hupd hne hres hlast r' s' ok hr
    rw [render_success r s rt dsv fs z sc out p1 warns hupd hne hres] at hr
    simp only [Option.some.injEq, Prod.mk.injEq] at hr
    obtain ⟨-, hs', -⟩ := hr
    subst hs'
    have h := foldl_draw_mesh_last p1 _ lm hlast
      (Renderer.setup { r with texture_pool := p1, state_block := some (StateBlock.new s) }
        s rt dsv fs)
    simpa [StateBlock.apply] using h

/-- Counterexample for claim C5: a state-preserving render call that
starts with no scissor rectangle bound ends with the scissor rectangle of
the drawn mesh still bound, so a renderer-written binding is not restored
(the StateBlock has no field for it). -/
theorem claim_C5_counterexample :
    (Renderer.render none wRend wState 50 60 (100, 80) 1 1 wOut).map
        (fun res => res.2.1.scissor_rects) =
      some [{ left := 0, top := 0, right := 10, bottom := 10 }] ∧
    wState.scissor_rects = [] := by
  rw [wRender_eq]
  exact ⟨rfl, rfl⟩

/-- Witness for claim C5: the witness render call keeps the last-mesh
scissor rectangle, vertex buffer and index buffer after restoration. -/
theorem claim_C5_witness :
    wFinal.scissor_rects = [rectToRECT wMeshData.clip_rect] ∧
    wFinal.vertex_buffer = some wMeshData.vtx ∧
    wFinal.index_buffer = some wMeshData.idx :=
  claim_C5.2 wRend wState 50 60 (100, 80) 1 1 wOut wPool [] wMeshData (by decide)
    (by simp [wOut]) rfl
    (by
      simp only [processPrimitives, wOut, wMesh, wWhite, wMeshData, List.filterMap,
        frame_size_scaled, transform_vertex, reduceIte, reduceCtorEq]
      norm_num [List.getLast?])
    wR2 wFinal true wRender_eq

/-- Claim C6: a completed render call issues, per tessellated primitive,
no draw for a paint callback, no draw for a mesh with an empty index list,
no draw for a mesh whose index count is not a multiple of three, and
exactly one indexed draw whose index count is the index-list length for
every other mesh, in order. -/
theorem claim_C6 (r : Renderer) (s : DeviceState) (rt dsv : Nat) (fs : Nat × Nat)
    (z sc : ℚ) (out : RendererOutput) (p1 : TexturePool) (warns : List TextureId)
    (hupd : TexturePool.update r.texture_pool out.textures_delta = some (p1, warns)) :
    ∀ r' s' ok, Renderer.render none r s rt dsv fs z sc out = some (r', s', ok) →
      s'.draw_calls = s.draw_calls ++ out.shapes.flatMap (fun cp =>
        match cp.primitive with
        | .callback => []
        | .mesh m =>
          if m.indices = [] then []
          else if m.indices.length % 3 ≠ 0 then []
          else [m.indices.length]) := by
  intro r' s' ok hr
  unfold Renderer.render at hr
  rw [hupd] at hr
  by_cases hsh : out.shapes = []
  · simp only [hsh, if_pos, Option.some.injEq, Prod.mk.injEq] at hr
    obtain ⟨-, hs', -⟩ := hr
    subst hs'
    simp [hsh]
  · simp only [if_neg hsh, drawLoop_none] at hr
    cases hres : r.restore_state_after_render with
    | true =>
      simp only [hres, if_pos, Option.some.injEq, Prod.mk.injEq] at hr
      obtain ⟨-, hs', -⟩ := hr
      subst hs'
      simp [StateBlock.apply, foldl_draw_mesh_draw_calls, Renderer.setup,
        processPrimitives_idx_lengths]
    | false =>
      simp only [hres, Bool.false_eq_true, if_false] at hr
      cases hsb : r.state_block with
      | none =>
        simp only [hsb, Option.some.injEq, Prod.mk.injEq] at hr
        obtain ⟨-, hs', -⟩ := hr
        subst hs'
        simp [foldl_draw_mesh_draw_calls, Renderer.setup, processPrimitives_idx_lengths]
      | some sb =>
        simp only [hsb, Option.some.injEq, Prod.mk.injEq] at hr
        obtain ⟨-, hs', -⟩ := hr
        subst hs'
        simp [StateBlock.apply, foldl_draw_mesh_draw_calls, Renderer.setup,
          processPrimitives_idx_lengths]

/-- Witness for claim C6: over the four-shape output only the triangle
mesh draws, with index count 3. -/
theorem claim_C6_witness :
    wFinal.draw_calls = wState.draw_calls ++ wOut6.shapes.flatMap (fun cp =>
      match cp.primitive with
      | .callback => []
      | .mesh m =>
        if m.indices = [] then []
        else if m.indices.length % 3 ≠ 0 then []
        else [m.indices.length]) :=
  claim_C6 wRend wState 50 60 (100, 80) 1 1 wOut6 wPool [] (by decide)
    wR2 wFinal true wRender6_eq

/-- Claim C7 (amended): when a snapshot is captured it is stored in the
state_block field of the renderer, where it remains after the call; on a
mid-frame buffer-creation failure at mesh index i the call returns an
error after the first i draws without applying the snapshot, leaving the
device state as the draw loop left it. -/
theorem claim_C7 (r : Renderer) (s : DeviceState) (rt dsv : Nat) (fs : Nat × Nat)
    (z sc : ℚ) (out : RendererOutput) (p1 : TexturePool) (warns : List TextureId) (i : Nat)
    (hres : r.restore_state_after_render = true)
    (hupd : TexturePool.update r.texture_pool out.textures_delta = some (p1, warns))
    (hne : out.shapes ≠ [])
    (hi : i < (processPrimitives z sc (frame_size_scaled fs sc) out.shapes).length) :
    Renderer.render (some i) r s rt dsv fs z sc out =
      some ({ r with texture_pool := p1, state_block := some (StateBlock.new s) },
        ((processPrimitives z sc (frame_size_scaled fs sc) out.shapes).take i).foldl
          (fun st m => draw_mesh p1 m st)
          (Renderer.setup
            { r with texture_pool := p1, state_block := some (StateBlock.new s) }
            s rt dsv fs),
        false) := by
  unfold Renderer.render
  rw [hupd]
  simp only [if_neg hne, hres, if_pos, drawLoop_some _ _ _ _ hi]

/-- Counterexample for claim C7: after a successful state-preserving
render call the captured snapshot is still held in the state_block field
of the returned renderer, not discarded. -/
theorem claim_C7_counterexample :
    (Renderer.render none wRend wState 50 60 (100, 80) 1 1 wOut).map
        (fun res => res.1.state_block) =
      some (some (StateBlock.new wState)) ∧
    wRend.state_block = none := by
  rw [wRender_eq]
  exact ⟨rfl, rfl⟩

/-- Witness for claim C7: a failure injected at the first mesh of the
witness render call returns an error with the snapshot unapplied and
retained. -/
theorem claim_C7_witness :
    Renderer.render (some 0) wRend wState 50 60 (100, 80) 1 1 wOut =
      some ({ wRend with texture_pool := wPool, state_block := some (StateBlock.new wState) },
        ((processPrimitives 1 1 (frame_size_scaled (100, 80) 1) wOut.shapes).take 0).foldl
          (fun st m => draw_mesh wPool m st)
          (Renderer.setup
            { wRend with texture_pool := wPool, state_block := some (StateBlock.new wState) }
            wState 50 60 (100, 80)),
        false) :=
  claim_C7 wRend wState 50 60 (100, 80) 1 1 wOut wPool [] 0 rfl (by decide)
    (by simp [wOut])
    (by
      simp only [processPrimitives, wOut, wMesh, wWhite, List.filterMap,
        frame_size_scaled, transform_vertex, reduceIte, reduceCtorEq]
      norm_num)

/-! Helper lemmas about the partial-update loops. -/

theorem writeColor_length (l : List Nat) (i : Nat) (c : Color32) :
    (writeColor l i c).length = l.length := by
  simp [writeColor]

theorem ball_shift (P : Nat → Prop) (x cnt : Nat) (h0 : P x) :
    (∀ j < cnt, P (x + 1 + j)) ↔ ∀ j < cnt + 1, P (x + j) := by
  constructor
  · intro h j hj
    cases j with
    | zero => simpa using h0
    | succ n =>
      have hn := h n (by omega)
      rw [show x + (n + 1) = x + 1 + n from by omega]
      exact hn
  · intro h j hj
    have hn := h (j + 1) (by omega)
    rw [show x + 1 + j = x + (j + 1) from by omega]
    exact hn

theorem row_lt {W r r' c c' : Nat} (h : r < r') (hc : c < W) :
    r * W + c < r' * W + c' := by
  have h1 : (r + 1) * W = r * W + W := by ring
  have h2 : (r + 1) * W ≤ r' * W := Nat.mul_le_mul_right W h
  omega

theorem cell_ne {W py px r c : Nat} (hpx : px < W) (hc : c < W)
    (hne : py ≠ r ∨ px ≠ c) : py * W + px ≠ r * W + c := by
  intro he
  rcases hne with hr | hcne
  · rcases Nat.lt_or_ge py r with hlt | hge
    · have := @row_lt W py r px c hlt hpx
      omega
    · have hlt : r < py := by omega
      have := @row_lt W r py c px hlt hc
      omega
  · rcases Nat.lt_trichotomy py r with hlt | heq | hgt
    · have := @row_lt W py r px c hlt hpx
      omega
    · subst heq
      omega
    · have := @row_lt W r py c px hgt hc
      omega

theorem doCols_some_lengths (fpx : List ℚ) (W nx ny w y : Nat) :
    ∀ (cnt x : Nat) (st st' : List Color32 × List Nat),
      doCols fpx W nx ny w y x cnt st = some st' →
      st'.1.length = st.1.length ∧ st'.2.length = st.2.length := by
  intro cnt
  induction cnt with
  | zero =>
    intro x st st' h
    cases h
    exact ⟨rfl, rfl⟩
  | succ n ih =>
    intro x st st' h
    simp only [doCols] at h
    cases hfr : fpx[y * w + x]? with
    | none => rw [hfr, Option.none_bind] at h; cases h
    | some a =>
      rw [hfr, Option.some_bind] at h
      by_cases h1 : (ny + y) * W + nx + x < st.1.length
      · rw [if_pos h1] at h
        by_cases h2 : y * (W * 4) + x * 4 + 4 ≤ st.2.length
        · rw [if_pos h2] at h
          have hr := ih (x + 1) _ _ h
          simpa [writeColor_length] using hr
        · rw [if_neg h2] at h; cases h
      · rw [if_neg h1] at h; cases h

theorem doCols_isSome (fpx : List ℚ) (W nx ny w y : Nat) :
    ∀ (cnt x : Nat) (st : List Color32 × List Nat),
      (doCols fpx W nx ny w y x cnt st).isSome = true ↔
        ∀ j < cnt, colOk fpx.length st.1.length st.2.length W nx ny w y (x + j) := by
  intro cnt
  induction cnt with
  | zero =>
    intro x st
    simp [doCols]
  | succ n ih =>
    intro x st
    simp only [doCols]
    cases hfr : fpx[y * w + x]? with
    | none =>
      have hlen : fpx.length ≤ y * w + x := List.getElem?_eq_none_iff.mp hfr
      refine iff_of_false (by simp) ?_
      intro hall
      have h0 := (hall 0 (by omega)).1
      omega
    | some a =>
      have hfr' : y * w + x < fpx.length := (List.getElem?_eq_some.mp hfr).1
      rw [Option.some_bind]
      by_cases h1 : (ny + y) * W + nx + x < st.1.length
      · rw [if_pos h1]
        by_cases h2 : y * (W * 4) + x * 4 + 4 ≤ st.2.length
        · rw [if_pos h2]
          rw [ih (x + 1) _]
          simp only [List.length_set, writeColor_length]
          exact ball_shift _ x n ⟨by omega, by omega, by omega⟩
        · rw [if_neg h2]
          refine iff_of_false (by simp) ?_
          intro hall
          have h0 := (hall 0 (by omega)).2.2
          omega
      · rw [if_neg h1]
        refine iff_of_false (by simp) ?_
        intro hall
        have h0 := (hall 0 (by omega)).2.1
        omega

theorem doCols_get_outside (fpx : List ℚ) (W nx ny w y : Nat) :
    ∀ (cnt x : Nat) (st st' : List Color32 × List Nat),
      doCols fpx W nx ny w y x cnt st = some st' →
      ∀ idx : Nat, (∀ j < cnt, idx ≠ (ny + y) * W + nx + (x + j)) →
        st'.1[idx]? = st.1[idx]? := by
  intro cnt
  induction cnt with
  | zero =>
    intro x st st' h idx _
    cases h
    rfl
  | succ n ih =>
    intro x st st' h idx hidx
    simp only [doCols] at h
    cases hfr : fpx[y * w + x]? with
    | none => rw [hfr, Option.none_bind] at h; cases h
    | some a =>
      rw [hfr, Option.some_bind] at h
      by_cases h1 : (ny + y) * W + nx + x < st.1.length
      · rw [if_pos h1] at h
        by_cases h2 : y * (W * 4) + x * 4 + 4 ≤ st.2.length
        · rw [if_pos h2] at h
          have hrec := ih (x + 1) _ _ h idx (fun j hj => by
            have hs := hidx (j + 1) (by omega)
            omega)
          rw [hrec]
          exact List.getElem?_set_ne (by
            have hs := hidx 0 (by omega)
            omega)
        · rw [if_neg h2] at h; cases h
      · rw [if_neg h1] at h; cases h

theorem doCols_get_inside (fpx : List ℚ) (W nx ny w y : Nat) :
    ∀ (cnt x : Nat) (st st' : List Color32 × List Nat),
      doCols fpx W nx ny w y x cnt st = some st' →
      ∀ j < cnt,
        st'.1[(ny + y) * W + nx + (x + j)]? = (fpx[y * w + (x + j)]?).map fontPixel := by
  intro cnt
  induction cnt with
  | zero =>
    intro x st st' h j hj
    exact absurd hj (Nat.not_lt_zero j)
  | succ n ih =>
    intro x st st' h j hj
    simp only [doCols] at h
    cases hfr : fpx[y * w + x]? with
    | none => rw [hfr, Option.none_bind] at h; cases h
    | some a =>
      rw [hfr, Option.some_bind] at h
      by_cases h1 : (ny + y) * W + nx + x < st.1.length
      · rw [if_pos h1] at h
        by_cases h2 : y * (W * 4) + x * 4 + 4 ≤ st.2.length
        · rw [if_pos h2] at h
          cases j with
          | zero =>
            simp only [Nat.add_zero]
            have hout := doCols_get_outside fpx W nx ny w y n (x + 1) _ st' h
              ((ny + y) * W + nx + x) (fun j' hj' => by omega)
            rw [hout, List.getElem?_set_eq_of_lt _ h1, hfr]
            rfl
          | succ m =>
            have hm := ih (x + 1) _ st' h m (by omega)
            rw [show x + (m + 1) = x + 1 + m from by omega]
            exact hm
        · rw [if_neg h2] at h; cases h
      · rw [if_neg h1] at h; cases h

theorem doRows_some_lengths (fpx : List ℚ) (W nx ny w : Nat) :
    ∀ (cnt y : Nat) (st st' : List Color32 × List Nat),
      doRows fpx W nx ny w y cnt st = some st' →
      st'.1.length = st.1.length ∧ st'.2.length = st.2.length := by
  intro cnt
  induction cnt with
  | zero =>
    intro y st st' h
    cases h
    exact ⟨rfl, rfl⟩
  | succ n ih =>
    intro y st st' h
    simp only [doRows] at h
    cases hc : doCols fpx W nx ny w y 0 w st with
    | none => rw [hc, Option.none_bind] at h; cases h
    | some st1 =>
      rw [hc, Option.some_bind] at h
      have e1 := doCols_some_lengths fpx W nx ny w y w 0 st st1 hc
      have e2 := ih (y + 1) st1 st' h
      exact ⟨e2.1.trans e1.1, e2.2.trans e1.2⟩

theorem doRows_isSome (fpx : List ℚ) (W nx ny w : Nat) :
    ∀ (cnt y : Nat) (st : List Color32 × List Nat),
      (doRows fpx W nx ny w y cnt st).isSome = true ↔
        ∀ i < cnt, ∀ x < w,
          colOk fpx.length st.1.length st.2.length W nx ny w (y + i) x := by
  intro cnt
  induction cnt with
  | zero =>
    intro y st
    simp [doRows]
  | succ n ih =>
    intro y st
    simp only [doRows]
    cases hc : doCols fpx W nx ny w y 0 w st with
    | none =>
      have hciff := doCols_isSome fpx W nx ny w y w 0 st
      rw [hc] at hciff
      simp only [Option.isSome_none, Bool.false_eq_true, false_iff] at hciff
      refine iff_of_false (by simp) ?_
      intro hall
      apply hciff
      intro j hj
      have hj0 := hall 0 (by omega) j hj
      simpa using hj0
    | some st1 =>
      rw [Option.some_bind, ih (y + 1) st1]
      have hl := doCols_some_lengths fpx W nx ny w y w 0 st st1 hc
      rw [hl.1, hl.2]
      have hciff := doCols_isSome fpx W nx ny w y w 0 st
      rw [hc] at hciff
      simp only [Option.isSome_some, true_iff] at hciff
      exact ball_shift
        (fun t => ∀ x < w, colOk fpx.length st.1.length st.2.length W nx ny w t x) y n
        (fun x hx => by simpa using hciff x hx)

theorem doRows_get_outside (fpx : List ℚ) (W nx ny w : Nat) :
    ∀ (cnt y : Nat) (st st' : List Color32 × List Nat),
      doRows fpx W nx ny w y cnt st = some st' →
      ∀ idx : Nat, (∀ i < cnt, ∀ x < w, idx ≠ (ny + (y + i)) * W + nx + x) →
        st'.1[idx]? = st.1[idx]? := by
  intro cnt
  induction cnt with
  | zero =>
    intro y st st' h idx _
    cases h
    rfl
  | succ n ih =>
    intro y st st' h idx hidx
    simp only [doRows] at h
    cases hc : doCols fpx W nx ny w y 0 w st with
    | none => rw [hc, Option.none_bind] at h; cases h
    | some st1 =>
      rw [hc, Option.some_bind] at h
      have hrec := ih (y + 1) st1 st' h idx (fun i hi x hx => by
        have hs := hidx (i + 1) (by omega) x hx
        rw [show y + 1 + i = y + (i + 1) from by omega]
        exact hs)
      rw [hrec]
      exact doCols_get_outside fpx W nx ny w y w 0 st st1 hc idx (fun j hj => by
        have hs := hidx 0 (by omega) j hj
        simpa using hs)

theorem doRows_get_inside (fpx : List ℚ) (W nx ny w : Nat) (hW : nx + w ≤ W) :
    ∀ (cnt y : Nat) (st st' : List Color32 × List Nat),
      doRows fpx W nx ny w y cnt st = some st' →
      ∀ i < cnt, ∀ x < w,
        st'.1[(ny + (y + i)) * W + nx + x]? = (fpx[(y + i) * w + x]?).map fontPixel := by
  intro cnt
  induction cnt with
  | zero =>
    intro y st st' h i hi
    exact absurd hi (Nat.not_lt_zero i)
  | succ n ih =>
    intro y st st' h i hi x hx
    simp only [doRows] at h
    cases hc : doCols fpx W nx ny w y 0 w st with
    | none => rw [hc, Option.none_bind] at h; cases h
    | some st1 =>
      rw [hc, Option.some_bind] at h
      cases i with
      | zero =>
        simp only [Nat.add_zero]
        have hout := doRows_get_outside fpx W nx ny w n (y + 1) st1 st' h
          ((ny + y) * W + nx + x) (fun i' hi' x' hx' => by
            have hlt := @row_lt W (ny + y) (ny + (y + 1 + i')) (nx + x) (nx + x')
              (by omega) (by omega)
            omega)
        rw [hout]
        have hin := doCols_get_inside fpx W nx ny w y w 0 st st1 hc x hx
        simpa using hin
      | succ m =>
        have hm := ih (y + 1) st1 st' h m (by omega) x hx
        rw [show y + (m + 1) = y + 1 + m from by omega]
        exact hm

theorem updatePartial_isSome_iff (old : Texture) (w h : Nat) (fpx : List ℚ) (nx ny : Nat) :
    (updatePartial old (ImageData.font w h fpx) (nx, ny)).isSome = true ↔
      partialInBounds old.pixels.length fpx.length old.width w h nx ny := by
  unfold updatePartial
  have hiff := doRows_isSome fpx old.width nx ny w h 0
    (old.pixels, List.replicate (h * (old.width * 4)) 0)
  cases hdr : doRows fpx old.width nx ny w 0 h
      (old.pixels, List.replicate (h * (old.width * 4)) 0) with
  | none =>
    rw [hdr] at hiff
    simp only [Option.isSome_none, Bool.false_eq_true, false_iff] at hiff
    simp only [hdr]
    refine iff_of_false (by simp) ?_
    intro hpb
    apply hiff
    intro i hi x hx
    have hp := hpb i hi x hx
    simpa [List.length_replicate] using hp
  | some st =>
    rw [hdr] at hiff
    simp only [Option.isSome_some, true_iff] at hiff
    simp only [hdr]
    refine iff_of_true (by simp) ?_
    intro y hy x hx
    have hp := hiff y hy x hx
    simpa [List.length_replicate] using hp

theorem specWindow_inBounds (old : Texture) (w h : Nat) (fpxLen nx ny : Nat)
    (hlen : fpxLen = w * h) (hsw : specWindowInBounds old w h nx ny) :
    partialInBounds old.pixels.length fpxLen old.width w h nx ny := by
  obtain ⟨h1, h2⟩ := hsw
  intro y hy x hx
  refine ⟨?_, ?_, ?_⟩
  · have e1 : (y + 1) * w = y * w + w := by ring
    have e2 : (y + 1) * w ≤ h * w := Nat.mul_le_mul_right w (by omega)
    have e3 : h * w = w * h := Nat.mul_comm h w
    omega
  · have e1 : (ny + y + 1) * old.width = (ny + y) * old.width + old.width := by ring
    have e2 : (ny + y + 1) * old.width ≤ (ny + h) * old.width :=
      Nat.mul_le_mul_right _ (by omega)
    omega
  · have e1 : (y + 1) * (old.width * 4) = y * (old.width * 4) + old.width * 4 := by ring
    have e2 : (y + 1) * (old.width * 4) ≤ h * (old.width * 4) :=
      Nat.mul_le_mul_right _ (by omega)
    have e3 : (x + 1) * 4 ≤ w * 4 := Nat.mul_le_mul_right 4 (by omega)
    have e4 : w * 4 ≤ old.width * 4 := Nat.mul_le_mul_right 4 (by omega)
    omega

/-- Claim C10 (amended): a partial update against a present id completes
without a panic exactly when the image is a coverage image and every
access of the loops is in bounds; a non-coverage image always hits the
fatal unreachable branch; and under the spec precondition that the window
lies within the cached width and pixel-buffer bounds the fatal branches
are unreachable.  The exact in-bounds condition does not require the
window to stay within the cached width: a window hanging over the right
edge wraps into the next row without a panic. -/
theorem claim_C10 :
    (∀ (old : Texture) (pos : Nat × Nat) (img : ImageData),
      img.isFont = false → updatePartial old img pos = none) ∧
    (∀ (old : Texture) (w h : Nat) (fpx : List ℚ) (nx ny : Nat),
      (updatePartial old (ImageData.font w h fpx) (nx, ny)).isSome = true ↔
        partialInBounds old.pixels.length fpx.length old.width w h nx ny) ∧
    (∀ (old : Texture) (w h : Nat) (fpx : List ℚ) (nx ny : Nat),
      fpx.length = w * h → specWindowInBounds old w h nx ny →
      (updatePartial old (ImageData.font w h fpx) (nx, ny)).isSome = true) := by
  refine ⟨?_, ?_, ?_⟩
  · intro old pos img himg
    cases img with
    | color w h px => rfl
    | font w h px => simp [ImageData.isFont] at himg
  · intro old w h fpx nx ny
    exact updatePartial_isSome_iff old w h fpx nx ny
  · intro old w h fpx nx ny hlen hsw
    exact (updatePartial_isSome_iff old w h fpx nx ny).mpr
      (specWindow_inBounds old w h fpx.length nx ny hlen hsw)

/-- Counterexample for claim C10: a partial update of a 4-wide texture at
offset (3, 0) with a 2-by-1 coverage image completes without a panic even
though the window extends past the cached width (it wraps into the next
row), so in-window bounds are not necessary for panic-freedom. -/
theorem claim_C10_counterexample :
    (updatePartial wTex4 (ImageData.font 2 1 [1, 1]) (3, 0)).isSome = true ∧
    ¬ specWindowInBounds wTex4 2 1 3 0 := by
  constructor
  · exact (updatePartial_isSome_iff wTex4 2 1 [1, 1] 3 0).mpr (by decide)
  · decide

/-- Witness for claim C10: a color image panics, an in-bounds coverage
update does not. -/
theorem claim_C10_witness :
    updatePartial wTex4 (ImageData.color 1 1 [wWhite]) (0, 0) = none ∧
    (updatePartial wTex4 (ImageData.font 1 1 [1]) (0, 0)).isSome = true :=
  ⟨claim_C10.1 wTex4 (0, 0) (ImageData.color 1 1 [wWhite]) rfl,
   claim_C10.2.2 wTex4 1 1 [1] 0 0 (by rfl) (by decide)⟩

/-- Claim C2 (amended): a whole coverage update expands every scalar a to
the pixel (255, 255, 255, trunc(a*255)) — the alpha is truncated toward
zero by the as-cast, not rounded to nearest as the spec says — and a
partial coverage update whose window lies within the cached width and
pixel-buffer bounds writes the same expansion at every in-window pixel
and leaves every pixel outside the window unchanged. -/
theorem claim_C2 :
    (∀ (device w h : Nat) (fpx : List ℚ) (i : Nat),
      (create_texture device (ImageData.font w h fpx)).pixels[i]? =
        (fpx[i]?).map fontPixel) ∧
    (∀ (old : Texture) (w h : Nat) (fpx : List ℚ) (nx ny : Nat)
      (res : Texture × D3D10_BOX × List Nat),
      nx + w ≤ old.width →
      (ny + h) * old.width ≤ old.pixels.length →
      updatePartial old (ImageData.font w h fpx) (nx, ny) = some res →
      (∀ y, y < h → ∀ x, x < w →
        res.1.pixels[(ny + y) * old.width + nx + x]? = (fpx[y * w + x]?).map fontPixel) ∧
      (∀ px py, px < old.width →
        (px < nx ∨ nx + w ≤ px ∨ py < ny ∨ ny + h ≤ py) →
        res.1.pixels[py * old.width + px]? = old.pixels[py * old.width + px]?)) := by
  constructor
  · intro device w h fpx i
    simp [create_texture, List.getElem?_map]
  · intro old w h fpx nx ny res hW hpix hsome
    simp only [updatePartial] at hsome
    cases hdr : doRows fpx old.width nx ny w 0 h
        (old.pixels, List.replicate (h * (old.width * 4)) 0) with
    | none => rw [hdr, Option.none_bind] at hsome; cases hsome
    | some st =>
      rw [hdr, Option.some_bind] at hsome
      cases hsome
      constructor
      · intro y hy x hx
        have hin := doRows_get_inside fpx old.width nx ny w hW h 0
          (old.pixels, List.replicate (h * (old.width * 4)) 0) st hdr y hy x hx
        simpa using hin
      · intro px py hpx hout
        have hres := doRows_get_outside fpx old.width nx ny w h 0
          (old.pixels, List.replicate (h * (old.width * 4)) 0) st hdr
          (py * old.width + px) ?_
        · simpa using hres
        · intro i hi x hx
          simp only [Nat.zero_add, Nat.add_assoc]
          refine cell_ne hpx (by omega) ?_
          rcases hout with h1 | h1 | h1 | h1
          · exact Or.inr (by omega)
          · exact Or.inr (by omega)
          · exact Or.inl (by omega)
          · exact Or.inl (by omega)

/-- Counterexample for claim C2: the coverage scalar one half is expanded
with alpha trunc(127.5) = 127 by the source, while the round of the spec
sentence gives 128. -/
theorem claim_C2_counterexample :
    (create_texture 0 (ImageData.font 1 1 [(1 : ℚ) / 2])).pixels =
      [{ r := 255, g := 255, b := 255, a := 127 }] ∧
    fontPixelSpec ((1 : ℚ) / 2) = { r := 255, g := 255, b := 255, a := 128 } ∧
    ({ r := 255, g := 255, b := 255, a := 127 } : Color32) ≠
      { r := 255, g := 255, b := 255, a := 128 } := by
  refine ⟨?_, ?_, by decide⟩
  · simp only [create_texture, fontPixel, asU8, List.map]
    have hf : ⌊(2 : ℚ)⁻¹ * 255⌋ = 127 := by
      rw [Int.floor_eq_iff]
      norm_num
    simp [hf]
  · simp only [fontPixelSpec]
    have hr : round ((2 : ℚ)⁻¹ * 255) = 128 := by
      rw [round_eq]
      rw [Int.floor_eq_iff]
      norm_num
    simp [hr]

/-- Helper: the witness partial update of wTex4 at (1, 2) evaluated. -/
theorem wPartial_eq :
    updatePartial wTex4 (ImageData.font 1 1 [1]) (1, 2) = some wPartialRes := by
  have h255 : ⌊(1 : ℚ) * 255⌋ = 255 := by norm_num
  simp only [updatePartial, doRows, doCols, wTex4, wPartialRes, wPartialPixel,
    fontPixel, asU8, h255, List.length_replicate, List.length_set,
    writeColor_length]
  norm_num [writeColor]

/-- Witness for claim C2: the in-window pixel of the witness partial
update is the expanded scalar, and the pixel at the origin (outside the
window) is unchanged. -/
theorem claim_C2_witness :
    wPartialRes.1.pixels[(2 + 0) * wTex4.width + 1 + 0]? =
      (([(1 : ℚ)])[0 * 1 + 0]?).map fontPixel ∧
    wPartialRes.1.pixels[0 * wTex4.width + 0]? = wTex4.pixels[0 * wTex4.width + 0]? :=
  ⟨(claim_C2.2 wTex4 1 1 [1] 1 2 wPartialRes (by decide) (by decide) wPartial_eq).1
      0 (by omega) 0 (by omega),
   (claim_C2.2 wTex4 1 1 [1] 1 2 wPartialRes (by decide) (by decide) wPartial_eq).2
      0 0 (by decide) (Or.inl (by decide))⟩

end EguiDx10
